import Mathlib

/-!
Verification development for the Dragonfly2 seed-node cache.

The Go source under scrutiny is embedded shallowly:

* `CDN.*` embeds `cdn/cdn.go` (the composition root `New`, and the
  control-flow of `Server.Serve` and `Server.Stop`);
* `ManagerDB.*` embeds `manager/model` / the database `seed` and `migrate`
  functions and the scheduler service (`DestroyScheduler`);
* `Core.*` models the cache core (Task Registry, Piece Store, Source
  Fetcher, Eviction Controller, free-capacity counter).  The core is not
  part of the sampled source (only its mocks and callers are), so the
  `Core` definitions are modelled from the specification text, as their
  doc comments state.
-/

namespace CDN

/-- The components constructed by `New` in `cdn/cdn.go`, plus the mapping
targets of the six spec components (Piece Store = `storageManager`,
Task Registry = `taskManager`, Progress Notifier = `progressManager`,
Source Fetcher = `cdnManager`, Cache Orchestrator = `cdnService`;
the Eviction Controller lives inside the storage manager). -/
inductive Component where
  | taskManager
  | progressManager
  | storageManager
  | cdnManager
  | cdnService
  | rpcServer
  | fileServer
  | gcServer
  | metricsServer
  | configServer
deriving DecidableEq, Repr

open Component

/-- The order in which `New` (cdn/cdn.go lines 67-140) constructs the
components, read off the source top to bottom. -/
def newConstructionOrder : List Component :=
  [taskManager, progressManager, storageManager, cdnManager, cdnService,
   rpcServer, fileServer, gcServer, metricsServer, configServer]

/-- The previously constructed components each constructor call in `New`
receives as arguments, read off the source:
`progress.NewManager(taskManager)`,
`storage.NewManager(config.Storage, taskManager)`,
`cdn.NewManager(config.CDN, storageManager, progressManager, taskManager)`,
`supervisor.NewCDNService(taskManager, cdnManager, progressManager)`,
`rpcserver.New(config.RPCServer, service, opts...)`,
`fileserver.New(..., storageManager.GetUploadPath())`,
`metrics.New(config.Metrics, grpcServer.Server)`. -/
def constructorArgs : Component → List Component
  | taskManager => []
  | progressManager => [taskManager]
  | storageManager => [taskManager]
  | cdnManager => [storageManager, progressManager, taskManager]
  | cdnService => [taskManager, cdnManager, progressManager]
  | rpcServer => [cdnService]
  | fileServer => [storageManager]
  | gcServer => []
  | metricsServer => [rpcServer]
  | configServer => []

/-- Position of a component in the construction order of `New`. -/
def constructionIndex (c : Component) : Nat :=
  newConstructionOrder.indexOf c

/-- The ordering of the six core components claimed by the spec
(Piece Store → Task Registry → Progress Notifier → Eviction Controller →
Source Fetcher → Cache Orchestrator), mapped onto the code components.
The Eviction Controller is part of the storage manager, so it collapses
onto `storageManager`. -/
def specClaimedOrder : List Component :=
  [storageManager, taskManager, progressManager, storageManager,
   cdnManager, cdnService]

/-- The order `New` actually constructs the five core components in. -/
def actualCoreOrder : List Component :=
  [taskManager, progressManager, storageManager, cdnManager, cdnService]

/-- A list of components is consistent with the construction order when
its positions in `newConstructionOrder` are (non-strictly) increasing. -/
def followsConstructionOrder (l : List Component) : Prop :=
  l.Pairwise (fun a b => constructionIndex a ≤ constructionIndex b)

instance : DecidablePred followsConstructionOrder := fun l =>
  List.instDecidablePairwise l

/-- Configuration fields of `cdn/cdn.go` that decide control flow in
`New`, `Serve` and `Stop`. -/
structure Config where
  metricsAddr : String
  managerAddr : String
deriving DecidableEq, Repr

/-- The `Server` struct of `cdn/cdn.go`, reduced to the nilness of its
two optional fields: `metricsServer` is nil unless `config.Metrics.Addr`
is set, and `configServer` is nil unless `config.Manager.Addr` is set
(the other four fields are always non-nil on the success path). -/
structure Server where
  hasMetricsServer : Bool
  hasConfigServer : Bool
deriving DecidableEq, Repr

/-- `New` (cdn/cdn.go lines 67-140), success path: `metricsServer` stays
the nil `var metricsServer *metrics.Server` when `config.Metrics.Addr`
is empty, and `configServer` stays the nil `var configServer
managerClient.Client` when `config.Manager.Addr` is empty. -/
def New (cfg : Config) : Server :=
  { hasMetricsServer := cfg.metricsAddr ≠ ""
    hasConfigServer := cfg.managerAddr ≠ "" }

/-- The shutdown calls issued by `Server.Stop` (cdn/cdn.go lines
202-229). -/
inductive StopCall where
  | gcShutdown
  | configClose
  | metricsShutdown
  | grpcShutdown
  | fileShutdown
deriving DecidableEq, Repr

/-- The calls `Stop` spawns, read off the source: `gcServer.Shutdown()`
always; `configServer.Close()` guarded by `if s.configServer != nil`;
`metricsServer.Shutdown(ctx)` with no guard; `grpcServer.Shutdown()` and
`fileServer.Shutdown(ctx)` always. -/
def stopCalls (s : Server) : List StopCall :=
  [StopCall.gcShutdown] ++
    (if s.hasConfigServer then [StopCall.configClose] else []) ++
    [StopCall.metricsShutdown, StopCall.grpcShutdown, StopCall.fileShutdown]

/-- `Stop` invokes a method on a nil `metricsServer` exactly when the
field is nil yet the unguarded `metricsServer.Shutdown` call is made. -/
def stopCallsShutdownOnNilMetrics (s : Server) : Bool :=
  !s.hasMetricsServer && (stopCalls s).contains StopCall.metricsShutdown

/-- Log levels of the `dflog` calls appearing in `Serve`. -/
inductive LogLevel where
  | info
  | fatal
deriving DecidableEq, Repr

/-- A log event emitted by `Serve`. -/
structure LogEvent where
  level : LogLevel
  msg : String
deriving DecidableEq, Repr

/-- The `dflog` logger used by `Serve` wraps zap: its `Fatalf` writes a
fatal-level log entry and then exits the whole process.  `Serve` relies
on exactly that — none of its `logger.Fatalf` call sites (cdn/cdn.go
lines 146, 154, 176, 194) is followed by a `return`, so the registration
goroutine would otherwise fall through to the keepalive banner after a
failed registration.  The log entry is modelled here; the process exit is
modelled by the `exitsProcess` flag of the goroutine that called it. -/
def Fatalf (msg : String) : LogEvent :=
  { level := LogLevel.fatal, msg := msg }

/-- An info-level log event (`logger.Infof`). -/
def Infof (msg : String) : LogEvent :=
  { level := LogLevel.info, msg := msg }

/-- Results of the external calls `Serve` makes: each goroutine talks to
a distinct collaborator, so each gets its own outcome field.  `none`
means the call ran without error (for the file server, `fileErr` carries
only errors other than `http.ErrServerClosed`, which the source swallows
with a `return`). -/
structure ServeEnv where
  gcErr : Option String
  updateSeedPeer : Except String String
  metricsErr : Option String
  fileErr : Option String
  grpcErr : Option String
deriving Repr

/-- What one goroutine of `Serve` does: the log entries it writes,
whether it reached `KeepAlive`, and whether it called `logger.Fatalf` —
thereby exiting the whole process. -/
structure GoroutineResult where
  logs : List LogEvent
  keepAliveStarted : Bool
  exitsProcess : Bool
deriving DecidableEq, Repr

/-- The registration goroutine of `Serve` (cdn/cdn.go lines 159-186):
runs only when `configServer` is non-nil.  On an `UpdateSeedPeer` error
it calls `logger.Fatalf`, which logs and exits the process, so the
keepalive banner and the `KeepAlive` call below it are never reached; on
success it logs the banner and starts `KeepAlive`. -/
def registrationGoroutine (s : Server) (upd : Except String String)
    (managerAddr : String) : GoroutineResult :=
  if s.hasConfigServer then
    match upd with
    | Except.error e =>
        { logs := [Fatalf ("update cdn instance failed: " ++ e)]
          keepAliveStarted := false
          exitsProcess := true }
    | Except.ok inst =>
        { logs := [Infof ("====starting keepalive cdn instance " ++ inst ++
            " to manager " ++ managerAddr ++ "====")]
          keepAliveStarted := true
          exitsProcess := false }
  else { logs := [], keepAliveStarted := false, exitsProcess := false }

/-- The GC goroutine of `Serve` (cdn/cdn.go lines 143-148):
`logger.Fatalf` when `gcServer.Serve()` errors. -/
def gcGoroutine (env : ServeEnv) : GoroutineResult :=
  match env.gcErr with
  | some e =>
      { logs := [Fatalf ("start gc task failed: " ++ e)]
        keepAliveStarted := false
        exitsProcess := true }
  | none => { logs := [], keepAliveStarted := false, exitsProcess := false }

/-- The metrics goroutine of `Serve` (cdn/cdn.go lines 150-157): runs
only with a non-nil metrics server; `logger.Fatalf` on a listen error. -/
def metricsGoroutine (s : Server) (env : ServeEnv) : GoroutineResult :=
  if s.hasMetricsServer then
    match env.metricsErr with
    | some e =>
        { logs := [Fatalf ("start metrics server failed: " ++ e)]
          keepAliveStarted := false
          exitsProcess := true }
    | none => { logs := [], keepAliveStarted := false, exitsProcess := false }
  else { logs := [], keepAliveStarted := false, exitsProcess := false }

/-- The file server goroutine of `Serve` (cdn/cdn.go lines 188-196):
`logger.Fatalf` on a listen error other than `http.ErrServerClosed`. -/
def fileGoroutine (env : ServeEnv) : GoroutineResult :=
  match env.fileErr with
  | some e =>
      { logs := [Fatalf ("start cdn file server failed: " ++ e)]
        keepAliveStarted := false
        exitsProcess := true }
  | none => { logs := [], keepAliveStarted := false, exitsProcess := false }

/-- What one call to `Serve` leaves behind: all logs, whether keepalive
ran, whether some goroutine exited the process via `logger.Fatalf`, and
which serving activities are still up afterwards — an activity keeps
serving only if its own listener did not fail and no goroutine has
exited the process. -/
structure ServeOutcome where
  logs : List LogEvent
  keepAliveStarted : Bool
  processExited : Bool
  gcServing : Bool
  fileServing : Bool
  metricsServing : Bool
  pieceServing : Bool
deriving DecidableEq, Repr

/-- `Serve` (cdn/cdn.go lines 142-200): five goroutines plus the gRPC
listener on the calling thread.  A `logger.Fatalf` in any goroutine
exits the whole process and takes every other activity down with it. -/
def Serve (cfg : Config) (s : Server) (env : ServeEnv) : ServeOutcome :=
  let gc := gcGoroutine env
  let met := metricsGoroutine s env
  let reg := registrationGoroutine s env.updateSeedPeer cfg.managerAddr
  let fl := fileGoroutine env
  let exited := gc.exitsProcess || met.exitsProcess || reg.exitsProcess ||
    fl.exitsProcess
  { logs := gc.logs ++ met.logs ++ reg.logs ++ fl.logs
    keepAliveStarted := reg.keepAliveStarted
    processExited := exited
    gcServing := env.gcErr.isNone && !exited
    fileServing := env.fileErr.isNone && !exited
    metricsServing := s.hasMetricsServer && env.metricsErr.isNone && !exited
    pieceServing := env.grpcErr.isNone && !exited }

end CDN

namespace ManagerDB

/-- A scheduler cluster row; only the fields `seed` writes are kept. -/
structure SchedulerCluster where
  id : Nat
  name : String
  isDefault : Bool
deriving DecidableEq, Repr

/-- A seed peer cluster row; only the fields `seed` writes are kept. -/
structure SeedPeerCluster where
  id : Nat
  name : String
  isDefault : Bool
deriving DecidableEq, Repr

/-- The relational state `seed` touches: the two cluster tables in row
order, plus the `SchedulerClusters` association table as pairs
(seed peer cluster id, scheduler cluster id). -/
structure DBState where
  schedulerClusters : List SchedulerCluster
  seedPeerClusters : List SeedPeerCluster
  assoc : List (Nat × Nat)
deriving DecidableEq, Repr

/-- The default scheduler cluster `seed` creates (ID 1). -/
def defaultSchedulerCluster : SchedulerCluster :=
  { id := 1, name := "scheduler-cluster-1", isDefault := true }

/-- The default seed peer cluster `seed` creates (ID 1). -/
def defaultSeedPeerCluster : SeedPeerCluster :=
  { id := 1, name := "seed-peer-cluster-1", isDefault := true }

/-- `seed` (manager database, seed_peer.go companion file lines 158-217):
count the scheduler clusters and create the default one if the count is
zero; count the seed peer clusters and, if zero, create the default one,
re-read the first row of each cluster table, and append an association
between them.  `First` on an empty table is gorm record-not-found. -/
def seed (db : DBState) : Except String DBState :=
  let db1 :=
    if db.schedulerClusters.length ≤ 0 then
      { db with schedulerClusters :=
          db.schedulerClusters ++ [defaultSchedulerCluster] }
    else db
  if db1.seedPeerClusters.length ≤ 0 then
    let db2 := { db1 with seedPeerClusters :=
        db1.seedPeerClusters ++ [defaultSeedPeerCluster] }
    match db2.seedPeerClusters.head?, db2.schedulerClusters.head? with
    | some spc, some sc =>
        Except.ok { db2 with assoc := db2.assoc ++ [(spc.id, sc.id)] }
    | _, _ => Except.error "record not found"
  else Except.ok db1

/-- `migrate` runs gorm `AutoMigrate`, which creates or alters table
schemas but never inserts, updates or deletes rows: on the row state it
is the identity. -/
def migrate (db : DBState) : Except String DBState :=
  Except.ok db

/-- `newMyqsl` (same file, lines 79-111), after the connection is
established: run `migrate` only when `cfg.Migrate` is set, then always
run `seed`. -/
def newMyqsl (migrateFlag : Bool) (db : DBState) : Except String DBState := do
  let db1 ← if migrateFlag then migrate db else Except.ok db
  seed db1

/-- A scheduler row; `deletedAt` is the gorm soft-delete marker,
`none` for a live row. -/
structure Scheduler where
  id : Nat
  hostName : String
  deletedAt : Option Nat
deriving DecidableEq, Repr

/-- gorm `First(&scheduler, id)`: the first row with the given primary
key among rows not soft-deleted; record-not-found when absent. -/
def firstScheduler (rows : List Scheduler) (i : Nat) : Except String Scheduler :=
  match rows.find? (fun s => s.id == i && s.deletedAt == none) with
  | some s => Except.ok s
  | none => Except.error "record not found"

/-- `DestroyScheduler` (manager/service/scheduler.go lines 44-55): look
the row up with `First`; on error return it with the table untouched;
otherwise hard-delete via `Unscoped().Delete`, which removes every row
with that primary key regardless of soft-deletion, and return nil.  The
first component is the returned error, the second the resulting table. -/
def DestroyScheduler (rows : List Scheduler) (i : Nat) :
    Option String × List Scheduler :=
  match firstScheduler rows i with
  | Except.error e => (some e, rows)
  | Except.ok _ => (none, rows.filter (fun s => !(s.id == i)))

end ManagerDB

namespace Core

/-- Task lifecycle states (spec state machine): Fetching, Success, Fail. -/
inductive TaskState where
  | fetching
  | success
  | fail
deriving DecidableEq, Repr

/-- Modelled from the spec: the Task Registry is code of this repository
that is not under the sampled source (only its mocks and callers are).
It is the in-memory directory of tasks keyed by task identifier, here
reduced to the association of keys to lifecycle states, newest entry
first. -/
abbrev Registry := List (String × TaskState)

/-- Modelled from the spec: `CreateOrGet` is the single-flight gate —
"if a task already exists in Fetching or Success state, it returns the
existing entry with created=false; only the caller that observes
created=true may initiate a fetch"; a failed task is re-created by a new
fetch request.  Returns the updated registry and the `created` flag. -/
def CreateOrGet (reg : Registry) (key : String) : Registry × Bool :=
  match reg.find? (fun p => p.1 == key) with
  | some (_, TaskState.fetching) => (reg, false)
  | some (_, TaskState.success) => (reg, false)
  | some (_, TaskState.fail) =>
      ((key, TaskState.fetching) :: reg.filter (fun p => p.1 != key), true)
  | none => ((key, TaskState.fetching) :: reg, true)

/-- One serialized interleaving of `n` concurrent `CreateOrGet` callers
for the same key (the registry operation is atomic per the spec, so every
interleaving is a serialization of the calls).  Returns the final
registry and how many callers observed created=true — i.e. how many
Source Fetcher activities were initiated. -/
def runCallers (reg : Registry) (key : String) : Nat → Registry × Nat
  | 0 => (reg, 0)
  | n + 1 =>
      let r1 := CreateOrGet reg key
      let r2 := runCallers r1.1 key n
      (r2.1, (if r1.2 then 1 else 0) + r2.2)

/-- Modelled from the spec: a PieceRecord — task key, 0-based sequence
number, byte offset, byte length, content checksum; immutable once
written. -/
structure PieceRecord where
  taskKey : String
  seq : Nat
  offset : Nat
  len : Nat
  checksum : Nat
deriving DecidableEq, Repr

/-- Modelled from the spec: Piece Store `Put` "fails with DuplicateWrite
if the (taskKey, seq) pair already exists — enforces the write-once
invariant"; otherwise the new record is persisted after the existing
ones. -/
def Put (store : List PieceRecord) (r : PieceRecord) :
    Except String (List PieceRecord) :=
  if store.any (fun q => q.taskKey == r.taskKey && q.seq == r.seq) then
    Except.error "DuplicateWrite"
  else Except.ok (store ++ [r])

/-- Modelled from the spec: `DeleteTask` removes all piece records of the
given task and nothing else. -/
def DeleteTask (store : List PieceRecord) (key : String) : List PieceRecord :=
  store.filter (fun r => r.taskKey != key)

/-- The sequence numbers persisted for a task key, in store order. -/
def seqsFor (store : List PieceRecord) (key : String) : List Nat :=
  (store.filter (fun r => r.taskKey == key)).map (fun r => r.seq)

/-- Modelled from the spec: the Source Fetcher persists the pieces of one
fetch through `Put` in sequence order, numbering from `n`, each piece at
the offset where the previous one ended; a fetch that reaches Success has
completed exactly this series of writes.  Each list entry is the (length,
checksum) of one piece. -/
def writePieces (key : String) :
    List PieceRecord → Nat → Nat → List (Nat × Nat) →
      Except String (List PieceRecord)
  | store, _, _, [] => Except.ok store
  | store, n, off, (len, csum) :: rest =>
      match Put store
          { taskKey := key, seq := n, offset := off, len := len,
            checksum := csum } with
      | Except.error e => Except.error e
      | Except.ok store1 => writePieces key store1 (n + 1) (off + len) rest

/-- Modelled from the spec: the Source Fetcher "splits the stream into
pieces of the configured piece length (last piece may be shorter)".
Bytes are modelled as natural numbers. -/
def splitPieces (P : Nat) (s : List Nat) : List (List Nat) :=
  if h1 : s = [] then []
  else if h2 : P = 0 then [s]
  else s.take P :: splitPieces P (s.drop P)
termination_by s.length
decreasing_by
  simp only [List.length_drop]
  have hs : 0 < s.length := List.length_pos.mpr h1
  omega

/-- What the Eviction Controller reads off a task: its key, stored size,
lifecycle state, whether a Progress Notifier subscriber is active, and
the last-accessed/created timestamps. -/
structure EvictTask where
  key : String
  sizeBytes : Nat
  state : TaskState
  hasSubscribers : Bool
  lastAccess : Nat
  createdAt : Nat
deriving DecidableEq, Repr

/-- Modelled from the spec: victim order — "last-accessed time ascending
(least-recently-used); break ties by task creation time ascending". -/
def victimLE (a b : EvictTask) : Prop :=
  a.lastAccess < b.lastAccess ∨
    (a.lastAccess = b.lastAccess ∧ a.createdAt ≤ b.createdAt)

instance : DecidableRel victimLE := fun a b => by
  unfold victimLE
  infer_instance

instance : IsTotal EvictTask victimLE where
  total := by
    intro a b
    unfold victimLE
    omega

instance : IsTrans EvictTask victimLE where
  trans := by
    intro a b c hab hbc
    unfold victimLE at hab hbc ⊢
    omega

/-- Modelled from the spec: "eviction candidates are tasks in terminal
Success state with no active Progress Notifier subscribers", ordered by
`victimLE`. -/
def candidates (ts : List EvictTask) : List EvictTask :=
  List.insertionSort victimLE
    (ts.filter (fun t => t.state == TaskState.success && !t.hasSubscribers))

/-- Modelled from the spec: "delete victims one at a time ..., re-checking
free capacity after each deletion, until the requirement is met or no
candidates remain".  Returns the keys deleted, in deletion order, and the
resulting free capacity. -/
def evictLoop (required : Nat) : Nat → List EvictTask → List String × Nat
  | free, [] => ([], free)
  | free, v :: rest =>
      if required ≤ free then ([], free)
      else
        let r := evictLoop required (free + v.sizeBytes) rest
        (v.key :: r.1, r.2)

/-- The eviction-relevant state: the known tasks, the configured capacity
and the current free bytes. -/
structure CacheState where
  tasks : List EvictTask
  capacity : Nat
  freeBytes : Nat
deriving DecidableEq, Repr

/-- Modelled from the spec: `EnsureCapacity(requiredBytes)` runs the
eviction loop over the ordered candidates starting from the current free
capacity. -/
def EnsureCapacity (required : Nat) (st : CacheState) : List String × Nat :=
  evictLoop required st.freeBytes (candidates st.tasks)

/-- An operation on the shared free-capacity counter: a Source Fetcher
piece write consuming `n` bytes, or an Eviction Controller deletion
reclaiming `n` bytes. -/
inductive CapOp where
  | writePiece (n : Nat)
  | evict (n : Nat)
deriving DecidableEq, Repr

/-- The free-capacity counter (as integers, so that "never goes negative"
is expressible) together with the configured total. -/
structure CapCounter where
  total : Int
  free : Int
deriving DecidableEq, Repr

/-- Modelled from the spec: the two mutators of the free-capacity
counter.  A piece write decrements the counter only for bytes
`EnsureCapacity` has secured (`n ≤ free`, else the write is refused with
InsufficientSpace and the counter untouched); an eviction increments it
only by bytes actually in use (`n ≤ total - free`: a deletion reclaims
at most what is stored). -/
def capApply (c : CapCounter) : CapOp → CapCounter
  | CapOp.writePiece n =>
      if (n : Int) ≤ c.free then { c with free := c.free - (n : Int) } else c
  | CapOp.evict n =>
      if (n : Int) ≤ c.total - c.free then { c with free := c.free + (n : Int) }
      else c

end Core

/-! ## Theorems -/

/-- C7 counterexample: the spec-claimed construction ordering of the six
core components (Piece Store before Task Registry before Progress
Notifier before ...) is not the order `New` constructs them in: the
storage manager (Piece Store) is built at position 2, after the task
manager (Task Registry, position 0) and the progress manager (position
1). -/
theorem c7_counterexample :
    ¬ CDN.followsConstructionOrder CDN.specClaimedOrder ∧
    CDN.constructionIndex CDN.Component.storageManager = 2 ∧
    CDN.constructionIndex CDN.Component.taskManager = 0 := by
  refine ⟨?_, rfl, rfl⟩
  decide

/-- C7 amended: `New` constructs the core components in the order Task
Registry → Progress Notifier → Piece Store (housing the Eviction
Controller) → Source Fetcher → Cache Orchestrator, and every component is
created strictly before any component that takes it as a constructor
argument. -/
theorem c7_construction_order :
    CDN.followsConstructionOrder CDN.actualCoreOrder ∧
    (CDN.newConstructionOrder.all fun c =>
      (CDN.constructorArgs c).all fun d =>
        decide (CDN.constructionIndex d < CDN.constructionIndex c)) = true := by
  constructor
  · decide
  · decide

/-- C8: when `config.Metrics.Addr` is empty, `New` leaves the
`metricsServer` field nil, yet `Stop` still issues the unguarded
`metricsServer.Shutdown` call on that nil value — unlike the
`configServer.Close` call, which is guarded by a nil check. -/
theorem c8_nil_metrics_shutdown :
    ∀ cfg : CDN.Config, cfg.metricsAddr = "" →
      (CDN.New cfg).hasMetricsServer = false ∧
      CDN.StopCall.metricsShutdown ∈ CDN.stopCalls (CDN.New cfg) ∧
      CDN.stopCallsShutdownOnNilMetrics (CDN.New cfg) = true ∧
      ((CDN.New cfg).hasConfigServer = false →
        CDN.StopCall.configClose ∉ CDN.stopCalls (CDN.New cfg)) := by
  intro cfg h
  refine ⟨?_, ?_, ?_, ?_⟩
  · simp [CDN.New, h]
  · simp [CDN.stopCalls]
  · simp [CDN.stopCallsShutdownOnNilMetrics, CDN.New, h, CDN.stopCalls]
  · intro hc
    simp [CDN.stopCalls, hc]

/-- C8 witness: a concrete configuration with no metrics address. -/
theorem c8_witness :
    (CDN.New { metricsAddr := "", managerAddr := "" }).hasMetricsServer = false ∧
    CDN.StopCall.metricsShutdown ∈
      CDN.stopCalls (CDN.New { metricsAddr := "", managerAddr := "" }) ∧
    CDN.stopCallsShutdownOnNilMetrics
      (CDN.New { metricsAddr := "", managerAddr := "" }) = true ∧
    ((CDN.New { metricsAddr := "", managerAddr := "" }).hasConfigServer = false →
      CDN.StopCall.configClose ∉
        CDN.stopCalls (CDN.New { metricsAddr := "", managerAddr := "" })) :=
  c8_nil_metrics_shutdown { metricsAddr := "", managerAddr := "" } rfl

/-- C2 (refutation at the failing input): with the manager address
configured and every other collaborator healthy, an `UpdateSeedPeer`
registration error drives `Serve` through `logger.Fatalf`, which logs the
error and exits the process: the gRPC piece-serving, file-serving and GC
activities are all killed.  With a successful registration — the only
difference — the same server keeps all of them serving and starts the
keepalive.  The error is therefore not merely logged; it takes the
fetch/read paths down with it, contrary to the claim. -/
theorem c2_registration_fatal_kills_serving :
    (CDN.Serve { metricsAddr := "", managerAddr := "m:80" }
        (CDN.New { metricsAddr := "", managerAddr := "m:80" })
        { gcErr := none, updateSeedPeer := Except.error "boom",
          metricsErr := none, fileErr := none,
          grpcErr := none }).processExited = true ∧
    (CDN.Serve { metricsAddr := "", managerAddr := "m:80" }
        (CDN.New { metricsAddr := "", managerAddr := "m:80" })
        { gcErr := none, updateSeedPeer := Except.error "boom",
          metricsErr := none, fileErr := none,
          grpcErr := none }).pieceServing = false ∧
    (CDN.Serve { metricsAddr := "", managerAddr := "m:80" }
        (CDN.New { metricsAddr := "", managerAddr := "m:80" })
        { gcErr := none, updateSeedPeer := Except.error "boom",
          metricsErr := none, fileErr := none,
          grpcErr := none }).fileServing = false ∧
    (CDN.Serve { metricsAddr := "", managerAddr := "m:80" }
        (CDN.New { metricsAddr := "", managerAddr := "m:80" })
        { gcErr := none, updateSeedPeer := Except.error "boom",
          metricsErr := none, fileErr := none,
          grpcErr := none }).gcServing = false ∧
    CDN.Fatalf "update cdn instance failed: boom" ∈
      (CDN.Serve { metricsAddr := "", managerAddr := "m:80" }
        (CDN.New { metricsAddr := "", managerAddr := "m:80" })
        { gcErr := none, updateSeedPeer := Except.error "boom",
          metricsErr := none, fileErr := none,
          grpcErr := none }).logs ∧
    (CDN.Serve { metricsAddr := "", managerAddr := "m:80" }
        (CDN.New { metricsAddr := "", managerAddr := "m:80" })
        { gcErr := none, updateSeedPeer := Except.ok "inst",
          metricsErr := none, fileErr := none,
          grpcErr := none }).processExited = false ∧
    (CDN.Serve { metricsAddr := "", managerAddr := "m:80" }
        (CDN.New { metricsAddr := "", managerAddr := "m:80" })
        { gcErr := none, updateSeedPeer := Except.ok "inst",
          metricsErr := none, fileErr := none,
          grpcErr := none }).pieceServing = true ∧
    (CDN.Serve { metricsAddr := "", managerAddr := "m:80" }
        (CDN.New { metricsAddr := "", managerAddr := "m:80" })
        { gcErr := none, updateSeedPeer := Except.ok "inst",
          metricsErr := none, fileErr := none,
          grpcErr := none }).fileServing = true ∧
    (CDN.Serve { metricsAddr := "", managerAddr := "m:80" }
        (CDN.New { metricsAddr := "", managerAddr := "m:80" })
        { gcErr := none, updateSeedPeer := Except.ok "inst",
          metricsErr := none, fileErr := none,
          grpcErr := none }).gcServing = true ∧
    (CDN.Serve { metricsAddr := "", managerAddr := "m:80" }
        (CDN.New { metricsAddr := "", managerAddr := "m:80" })
        { gcErr := none, updateSeedPeer := Except.ok "inst",
          metricsErr := none, fileErr := none,
          grpcErr := none }).keepAliveStarted = true := by
  decide

/-- Helper for C1: once the key is registered in Fetching state, any
number of further `CreateOrGet` calls return the existing entry with
created=false and leave the registry unchanged. -/
theorem runCallers_of_fetching (reg : Core.Registry) (key k : String)
    (h : reg.find? (fun p => p.1 == key) = some (k, Core.TaskState.fetching)) :
    ∀ n, Core.runCallers reg key n = (reg, 0) := by
  intro n
  induction n with
  | zero => rfl
  | succ m ih =>
      simp [Core.runCallers, Core.CreateOrGet, h, ih]

/-- C1: for a previously unseen task key, any serialized interleaving of
n ≥ 1 concurrent `CreateOrGet` callers yields exactly one created=true
observation — exactly one Source Fetcher activity is initiated — and the
final registry holds the single Fetching entry the first caller created,
untouched by the other callers. -/
theorem c1_single_flight :
    ∀ (reg : Core.Registry) (key : String) (n : Nat),
      reg.find? (fun p => p.1 == key) = none → 1 ≤ n →
      (Core.runCallers reg key n).2 = 1 ∧
      (Core.runCallers reg key n).1 = (key, Core.TaskState.fetching) :: reg := by
  intro reg key n hnone hn
  obtain ⟨m, rfl⟩ : ∃ m, n = m + 1 := by
    cases n with
    | zero => omega
    | succ m => exact ⟨m, rfl⟩
  have hfirst : Core.CreateOrGet reg key =
      ((key, Core.TaskState.fetching) :: reg, true) := by
    simp [Core.CreateOrGet, hnone]
  have hfind : ((key, Core.TaskState.fetching) :: reg).find?
      (fun p => p.1 == key) = some (key, Core.TaskState.fetching) := by
    simp [List.find?]
  have hrest := runCallers_of_fetching _ key key hfind m
  simp [Core.runCallers, hfirst, hrest]

/-- C1 witness: three concurrent first-touch callers for an unseen key. -/
theorem c1_witness :
    (Core.runCallers [] "task-a" 3).2 = 1 ∧
    (Core.runCallers [] "task-a" 3).1 =
      [("task-a", Core.TaskState.fetching)] :=
  c1_single_flight [] "task-a" 3 rfl (by omega)

/-- C6: starting from any counter state satisfying 0 ≤ free ≤ total,
every interleaving of Source Fetcher piece writes and Eviction Controller
reclaims keeps the free-capacity counter within [0, total], and never
changes the configured total. -/
theorem c6_capacity_counter_invariant :
    ∀ (ops : List Core.CapOp) (c0 : Core.CapCounter),
      0 ≤ c0.free → c0.free ≤ c0.total →
      0 ≤ (ops.foldl Core.capApply c0).free ∧
      (ops.foldl Core.capApply c0).free ≤ (ops.foldl Core.capApply c0).total ∧
      (ops.foldl Core.capApply c0).total = c0.total := by
  intro ops
  induction ops with
  | nil =>
      intro c0 h1 h2
      simpa using ⟨h1, h2⟩
  | cons op ops ih =>
      intro c0 h1 h2
      have hstep : 0 ≤ (Core.capApply c0 op).free ∧
          (Core.capApply c0 op).free ≤ (Core.capApply c0 op).total ∧
          (Core.capApply c0 op).total = c0.total := by
        cases op <;> simp [Core.capApply] <;> split <;> simp <;> omega
      obtain ⟨a, b, c⟩ := hstep
      obtain ⟨x, y, z⟩ := ih (Core.capApply c0 op) a b
      rw [List.foldl_cons]
      exact ⟨x, y, z.trans c⟩

/-- C6 witness: a concrete interleaving of writes and evictions. -/
theorem c6_witness :
    0 ≤ (([Core.CapOp.writePiece 3, Core.CapOp.evict 2,
        Core.CapOp.writePiece 9].foldl Core.capApply
        { total := 10, free := 10 }).free) ∧
    (([Core.CapOp.writePiece 3, Core.CapOp.evict 2,
        Core.CapOp.writePiece 9].foldl Core.capApply
        { total := 10, free := 10 }).free) ≤
      (([Core.CapOp.writePiece 3, Core.CapOp.evict 2,
        Core.CapOp.writePiece 9].foldl Core.capApply
        { total := 10, free := 10 }).total) ∧
    (([Core.CapOp.writePiece 3, Core.CapOp.evict 2,
        Core.CapOp.writePiece 9].foldl Core.capApply
        { total := 10, free := 10 }).total) = 10 :=
  c6_capacity_counter_invariant
    [Core.CapOp.writePiece 3, Core.CapOp.evict 2, Core.CapOp.writePiece 9]
    { total := 10, free := 10 } (by decide) (by decide)

/-- C10: `DestroyScheduler` returns the `First` error and leaves the
table untouched when no live scheduler with the id exists; when one
exists it returns nil and hard-deletes every row carrying that id, soft-
deleted or not, keeping all other rows in order. -/
theorem c10_destroy_scheduler :
    (∀ (rows : List ManagerDB.Scheduler) (i : Nat),
      rows.find? (fun s => s.id == i && s.deletedAt == none) = none →
      ManagerDB.DestroyScheduler rows i = (some "record not found", rows)) ∧
    (∀ (rows : List ManagerDB.Scheduler) (i : Nat) (s : ManagerDB.Scheduler),
      rows.find? (fun s => s.id == i && s.deletedAt == none) = some s →
      ManagerDB.DestroyScheduler rows i =
        (none, rows.filter (fun r => !(r.id == i))) ∧
      ∀ r ∈ (ManagerDB.DestroyScheduler rows i).2, r.id ≠ i) := by
  constructor
  · intro rows i h
    simp [ManagerDB.DestroyScheduler, ManagerDB.firstScheduler, h]
  · intro rows i s h
    have hd : ManagerDB.DestroyScheduler rows i =
        (none, rows.filter (fun r => !(r.id == i))) := by
      simp [ManagerDB.DestroyScheduler, ManagerDB.firstScheduler, h]
    refine ⟨hd, ?_⟩
    intro r hr
    rw [hd] at hr
    simp at hr
    exact hr.2

/-- C10 witness: destroying a missing id errs and keeps the table;
destroying an existing id hard-deletes it. -/
theorem c10_witness :
    ManagerDB.DestroyScheduler [{ id := 1, hostName := "h", deletedAt := none }] 2 =
      (some "record not found", [{ id := 1, hostName := "h", deletedAt := none }]) ∧
    ManagerDB.DestroyScheduler [{ id := 1, hostName := "h", deletedAt := none }] 1 =
      (none, List.filter (fun r => !(r.id == 1))
        [{ id := 1, hostName := "h", deletedAt := none }]) :=
  ⟨c10_destroy_scheduler.1 [{ id := 1, hostName := "h", deletedAt := none }] 2 rfl,
   (c10_destroy_scheduler.2 [{ id := 1, hostName := "h", deletedAt := none }] 1
      { id := 1, hostName := "h", deletedAt := none } rfl).1⟩


/-- Helper for C9: on a database that already has at least one scheduler
cluster row and one seed peer cluster row, `seed` writes nothing. -/
theorem seed_noop_of_nonempty (db : ManagerDB.DBState)
    (h1 : db.schedulerClusters ≠ []) (h2 : db.seedPeerClusters ≠ []) :
    ManagerDB.seed db = Except.ok db := by
  have l1 : ¬ (db.schedulerClusters.length ≤ 0) := by
    simpa [Nat.le_zero, List.length_eq_zero] using h1
  have l2 : ¬ (db.seedPeerClusters.length ≤ 0) := by
    simpa [Nat.le_zero, List.length_eq_zero] using h2
  simp [ManagerDB.seed, l1, l2]

/-- Helper for C9: whenever `seed` succeeds, the resulting database has a
scheduler cluster row and a seed peer cluster row. -/
theorem seed_result_nonempty :
    ∀ db db', ManagerDB.seed db = Except.ok db' →
      db'.schedulerClusters ≠ [] ∧ db'.seedPeerClusters ≠ [] := by
  rintro ⟨sc, spc, asc⟩ db' h
  cases sc <;> cases spc <;>
    simp_all [ManagerDB.seed] <;>
    (try subst h) <;>
    simp_all

/-- Helper for C3: successful `Put` appends the record, leaving every
existing record and their order untouched. -/
theorem Put_ok (store : List Core.PieceRecord) (r : Core.PieceRecord)
    (store1 : List Core.PieceRecord) (h : Core.Put store r = Except.ok store1) :
    store1 = store ++ [r] := by
  unfold Core.Put at h
  split at h
  · cases h
  · cases h
    rfl

/-- Helper for C3: the persisted sequence numbers of a key grow by the
appended record when it belongs to the key. -/
theorem seqsFor_append (store : List Core.PieceRecord) (key : String)
    (r : Core.PieceRecord) (h : r.taskKey = key) :
    Core.seqsFor (store ++ [r]) key = Core.seqsFor store key ++ [r.seq] := by
  simp [Core.seqsFor, List.filter_append, h]

/-- Helper for C3: writing the pieces of a fetch starting at sequence
number n extends the persisted sequence numbers of the key by the run
n, n+1, ..., provided every prior record of the key sits below n. -/
theorem writePieces_seqs (key : String) :
    ∀ (pieces : List (Nat × Nat)) (store : List Core.PieceRecord)
      (n off : Nat) (store' : List Core.PieceRecord),
      (∀ r ∈ store, r.taskKey = key → r.seq < n) →
      Core.writePieces key store n off pieces = Except.ok store' →
      Core.seqsFor store' key =
        Core.seqsFor store key ++ List.range' n pieces.length := by
  intro pieces
  induction pieces with
  | nil =>
      intro store n off store' hinv h
      simp [Core.writePieces] at h
      subst h
      simp [List.range']
  | cons p rest ih =>
      intro store n off store' hinv h
      obtain ⟨len, csum⟩ := p
      rw [Core.writePieces] at h
      rcases hput : Core.Put store
          { taskKey := key, seq := n, offset := off, len := len,
            checksum := csum } with e | store1
      · rw [hput] at h
        cases h
      · rw [hput] at h
        have hstore1 := Put_ok _ _ _ hput
        subst hstore1
        have hinv1 : ∀ r ∈ store ++
            [{ taskKey := key, seq := n, offset := off, len := len,
               checksum := csum : Core.PieceRecord }],
            r.taskKey = key → r.seq < n + 1 := by
          intro r hr hk
          rcases List.mem_append.mp hr with hold | hnew
          · exact Nat.lt_succ_of_lt (hinv r hold hk)
          · simp at hnew
            subst hnew
            exact Nat.lt_succ_self n
        have := ih _ (n + 1) (off + len) store' hinv1 h
        rw [this, seqsFor_append store key _ rfl]
        simp [List.range'_succ]

/-- C9: `seed` runs on every connection regardless of the Migrate flag;
on a database already holding a scheduler cluster row and a seed peer
cluster row it performs no writes; on an empty database it creates
exactly the default scheduler cluster (ID 1), the default seed peer
cluster (ID 1) and one association between them; and running it twice
gives the same state as running it once. -/
theorem c9_seed_idempotent :
    (∀ db : ManagerDB.DBState, db.schedulerClusters ≠ [] →
      db.seedPeerClusters ≠ [] → ManagerDB.seed db = Except.ok db) ∧
    (ManagerDB.seed { schedulerClusters := [], seedPeerClusters := [],
                      assoc := [] } =
      Except.ok { schedulerClusters := [ManagerDB.defaultSchedulerCluster],
                  seedPeerClusters := [ManagerDB.defaultSeedPeerCluster],
                  assoc := [(1, 1)] }) ∧
    (∀ db db', ManagerDB.seed db = Except.ok db' →
      ManagerDB.seed db' = Except.ok db') ∧
    (∀ (flag : Bool) (db : ManagerDB.DBState),
      ManagerDB.newMyqsl flag db = ManagerDB.seed db) := by
  refine ⟨fun db => seed_noop_of_nonempty db, ?_, ?_, ?_⟩
  · rfl
  · intro db db' h
    obtain ⟨h1, h2⟩ := seed_result_nonempty db db' h
    exact seed_noop_of_nonempty db' h1 h2
  · intro flag db
    cases flag <;> rfl

/-- C9 witness: concrete runs of `seed` and `newMyqsl`. -/
theorem c9_witness :
    ManagerDB.seed { schedulerClusters := [ManagerDB.defaultSchedulerCluster],
                     seedPeerClusters := [ManagerDB.defaultSeedPeerCluster],
                     assoc := [(1, 1)] } =
      Except.ok { schedulerClusters := [ManagerDB.defaultSchedulerCluster],
                  seedPeerClusters := [ManagerDB.defaultSeedPeerCluster],
                  assoc := [(1, 1)] } ∧
    ManagerDB.newMyqsl false { schedulerClusters := [], seedPeerClusters := [],
                               assoc := [] } =
      ManagerDB.seed { schedulerClusters := [], seedPeerClusters := [],
                       assoc := [] } :=
  ⟨c9_seed_idempotent.2.2.1 _ _ c9_seed_idempotent.2.1,
   c9_seed_idempotent.2.2.2 false _⟩

/-- C3: a task fetched to Success over a store that held no records of
its key persists exactly the sequence numbers 0..N-1 with no gaps; a
successful `Put` appends its record without touching or reordering the
existing ones; and `DeleteTask` only removes records, keeping the
survivors unchanged and in order. -/
theorem c3_pieces_contiguous_immutable :
    (∀ (key : String) (store : List Core.PieceRecord)
        (pieces : List (Nat × Nat)) (store' : List Core.PieceRecord),
      (∀ r ∈ store, r.taskKey ≠ key) →
      Core.writePieces key store 0 0 pieces = Except.ok store' →
      Core.seqsFor store' key = List.range pieces.length) ∧
    (∀ (store : List Core.PieceRecord) (r : Core.PieceRecord)
        (store' : List Core.PieceRecord),
      Core.Put store r = Except.ok store' → store' = store ++ [r]) ∧
    (∀ (store : List Core.PieceRecord) (key : String),
      (Core.DeleteTask store key).Sublist store) := by
  refine ⟨?_, Put_ok, ?_⟩
  · intro key store pieces store' hkey h
    have hinv : ∀ r ∈ store, r.taskKey = key → r.seq < 0 := by
      intro r hr heq
      exact absurd heq (hkey r hr)
    have hempty : Core.seqsFor store key = [] := by
      simp only [Core.seqsFor, List.map_eq_nil_iff, List.filter_eq_nil_iff]
      intro r hr
      simpa using hkey r hr
    have := writePieces_seqs key pieces store 0 0 store' hinv h
    rw [this, hempty, List.range_eq_range']
    rfl
  · intro store key
    exact List.filter_sublist store

/-- C3 witness: a two-piece fetch over an empty store yields sequence
numbers 0 and 1 with no gaps. -/
theorem c3_witness :
    Core.seqsFor
      [{ taskKey := "t", seq := 0, offset := 0, len := 2, checksum := 7 },
       { taskKey := "t", seq := 1, offset := 2, len := 3, checksum := 9 }]
      "t" = List.range 2 :=
  c3_pieces_contiguous_immutable.1 "t" [] [(2, 7), (3, 9)] _
    (by intro r hr; cases hr) rfl

/-- Helper for C4: the split of a source is empty exactly for the empty
source. -/
theorem splitPieces_eq_nil_iff (P : Nat) (s : List Nat) :
    Core.splitPieces P s = [] ↔ s = [] := by
  rw [Core.splitPieces]
  split
  · simp [*]
  · split <;> simp [*]

/-- Helper for C4: concatenating the pieces in order reproduces the
source bytes exactly. -/
theorem splitPieces_flatten (P : Nat) (s : List Nat) :
    (Core.splitPieces P s).flatten = s := by
  induction s using Core.splitPieces.induct P with
  | case1 => simp [Core.splitPieces]
  | case2 s h1 h2 => simp [Core.splitPieces, h1, h2]
  | case3 s h1 h2 ih =>
      rw [Core.splitPieces]
      simp [h1, h2, ih]

/-- Helper for C4: the split of a length-L source by piece length P > 0
has exactly ceil(L/P) pieces. -/
theorem splitPieces_length (P : Nat) (hP : 0 < P) (s : List Nat) :
    (Core.splitPieces P s).length = (s.length + P - 1) / P := by
  induction s using Core.splitPieces.induct P with
  | case1 =>
      rw [Core.splitPieces]
      simp
      rw [Nat.div_eq_of_lt (by omega)]
  | case2 s h1 h2 => omega
  | case3 s h1 h2 ih =>
      rw [Core.splitPieces]
      simp only [h1, h2, dite_false, List.length_cons, dif_neg]
      rw [ih]
      have hlen : 0 < s.length := List.length_pos.mpr h1
      have e1 : s.length + P - 1 = (s.length - 1) + P := by omega
      rw [e1, Nat.add_div_right _ hP, List.length_drop]
      rcases Nat.lt_or_ge (s.length) (P + 1) with hc | hc
      · have e2 : s.length - P = 0 := by omega
        rw [e2]
        have : (s.length - 1) / P = 0 := Nat.div_eq_of_lt (by omega)
        rw [this]
        simp
        exact Nat.div_eq_of_lt (by omega)
      · have e3 : s.length - P + P - 1 = (s.length - 1 - P) + P := by omega
        have e4 : s.length - 1 = (s.length - 1 - P) + P := by omega
        rw [e3, Nat.add_div_right _ hP, e4, Nat.add_div_right _ hP,
          Nat.add_sub_cancel]

/-- Helper for C4: every piece except the last has exactly the configured
piece length. -/
theorem splitPieces_dropLast (P : Nat) (hP : 0 < P) (s : List Nat) :
    ∀ q ∈ (Core.splitPieces P s).dropLast, q.length = P := by
  induction s using Core.splitPieces.induct P with
  | case1 =>
      rw [Core.splitPieces]
      simp
  | case2 s h1 h2 => omega
  | case3 s h1 h2 ih =>
      rw [Core.splitPieces]
      simp only [dif_neg h1, dif_neg h2]
      rcases hsp : Core.splitPieces P (s.drop P) with _ | ⟨b, bs⟩
      · simp
      · rw [List.dropLast_cons_of_ne_nil (by simp)]
        intro q hq
        rcases List.mem_cons.mp hq with hqa | hqrest
        · subst hqa
          have hdrop : s.drop P ≠ [] := by
            intro hcon
            rw [hcon] at hsp
            simp [Core.splitPieces] at hsp
          have hlen : P < s.length := by
            by_contra hle
            exact hdrop (List.drop_eq_nil_of_le (by omega))
          simp [List.length_take]
          omega
        · rw [hsp] at ih
          exact ih q hqrest

/-- Helper for C4: the last piece has exactly the residual length
L - P * (pieceCount - 1). -/
theorem splitPieces_getLast (P : Nat) (hP : 0 < P) (s : List Nat) :
    ∀ q, (Core.splitPieces P s).getLast? = some q →
      q.length = s.length - P * ((Core.splitPieces P s).length - 1) := by
  induction s using Core.splitPieces.induct P with
  | case1 =>
      rw [Core.splitPieces]
      simp
  | case2 s h1 h2 => omega
  | case3 s h1 h2 ih =>
      rw [Core.splitPieces]
      simp only [dif_neg h1, dif_neg h2]
      rcases hsp : Core.splitPieces P (s.drop P) with _ | ⟨b, bs⟩
      · intro q hq
        simp at hq
        subst hq
        have hdropnil : s.drop P = [] := (splitPieces_eq_nil_iff P _).mp hsp
        have hle : s.length ≤ P := by
          have := List.drop_eq_nil_iff.mp hdropnil
          omega
        simp [List.length_take]
        omega
      · intro q hq
        rw [List.getLast?_cons_cons] at hq
        rw [hsp] at ih
        have hq2 := ih q hq
        rw [List.length_drop] at hq2
        have hlc : (b :: bs).length - 1 = bs.length := by simp
        rw [hlc] at hq2
        simp only [List.length_cons]
        have hix : bs.length + 1 + 1 - 1 = bs.length + 1 := rfl
        rw [hix, Nat.mul_succ, hq2]
        generalize P * bs.length = k
        omega

/-- C4: for any source and piece length P > 0, the Source Fetcher
produces exactly ceil(L/P) pieces; every piece but the last has length P;
the last has length L - P*(ceil(L/P)-1); concatenating the pieces in
order reproduces the source, so any digest of the reassembled content
equals the digest of the full source.  Concretely, piece length 1024 on a
2500-byte source yields pieces of lengths 1024, 1024, 452. -/
theorem c4_piece_split :
    (∀ (P : Nat) (s : List Nat), 0 < P →
      (Core.splitPieces P s).length = (s.length + P - 1) / P ∧
      (∀ q ∈ (Core.splitPieces P s).dropLast, q.length = P) ∧
      (∀ q, (Core.splitPieces P s).getLast? = some q →
        q.length = s.length - P * ((Core.splitPieces P s).length - 1)) ∧
      (Core.splitPieces P s).flatten = s ∧
      (∀ digest : List Nat → Nat,
        digest (Core.splitPieces P s).flatten = digest s)) ∧
    (Core.splitPieces 1024 (List.replicate 2500 0)).map List.length =
      [1024, 1024, 452] := by
  constructor
  · intro P s hP
    refine ⟨splitPieces_length P hP s, splitPieces_dropLast P hP s,
      splitPieces_getLast P hP s, splitPieces_flatten P s, ?_⟩
    intro digest
    rw [splitPieces_flatten P s]
  · rw [Core.splitPieces]
    norm_num [List.take_replicate, List.drop_replicate]
    rw [Core.splitPieces]
    norm_num [List.take_replicate, List.drop_replicate]
    rw [Core.splitPieces]
    norm_num [List.take_replicate, List.drop_replicate]
    rw [Core.splitPieces]
    simp

/-- C4 witness: piece length 2 on a 5-byte source gives ceil(5/2) = 3
pieces that reassemble the source. -/
theorem c4_witness :
    (Core.splitPieces 2 [5, 6, 7, 8, 9]).length =
      ([5, 6, 7, 8, 9].length + 2 - 1) / 2 ∧
    (Core.splitPieces 2 [5, 6, 7, 8, 9]).flatten = [5, 6, 7, 8, 9] :=
  ⟨(c4_piece_split.1 2 [5, 6, 7, 8, 9] (by omega)).1,
   (c4_piece_split.1 2 [5, 6, 7, 8, 9] (by omega)).2.2.2.1⟩

/-- Helper for C5: the eviction loop deletes a prefix of the candidate
list, one victim at a time; the resulting free capacity is the starting
capacity plus the sizes of the deleted prefix; every deletion happens
while the requirement is still unmet; and the loop stops early only once
the requirement is met. -/
theorem evictLoop_spec (required : Nat) :
    ∀ (vs : List Core.EvictTask) (free : Nat), ∃ k,
      k ≤ vs.length ∧
      (Core.evictLoop required free vs).1 =
        (vs.take k).map (fun v => v.key) ∧
      (Core.evictLoop required free vs).2 =
        free + ((vs.take k).map (fun v => v.sizeBytes)).sum ∧
      (∀ j < k,
        free + ((vs.take j).map (fun v => v.sizeBytes)).sum < required) ∧
      (k < vs.length → required ≤ (Core.evictLoop required free vs).2) := by
  intro vs
  induction vs with
  | nil =>
      intro free
      refine ⟨0, by simp, by simp [Core.evictLoop], by simp [Core.evictLoop],
        by omega, by simp⟩
  | cons v rest ih =>
      intro free
      by_cases hmet : required ≤ free
      · refine ⟨0, by simp, ?_, ?_, by omega, ?_⟩
        · simp [Core.evictLoop, hmet]
        · simp [Core.evictLoop, hmet]
        · intro _
          simp [Core.evictLoop, hmet]
      · obtain ⟨k, hk, h1, h2, h3, h4⟩ := ih (free + v.sizeBytes)
        refine ⟨k + 1, by simpa using hk, ?_, ?_, ?_, ?_⟩
        · simp [Core.evictLoop, hmet, h1]
        · simp [Core.evictLoop, hmet, h2]
          omega
        · intro j hj
          cases j with
          | zero => simpa using Nat.lt_of_not_le hmet
          | succ i =>
              have := h3 i (by omega)
              simp only [List.take_succ_cons, List.map_cons, List.sum_cons]
              omega
        · intro hlt
          have := h4 (by simpa using hlt)
          simp [Core.evictLoop, hmet]
          omega

/-- C5: eviction candidates are exactly the unsubscribed Success tasks,
consulted in last-accessed-ascending order with creation-time tie-break;
`EnsureCapacity` deletes a prefix of them one at a time, each deletion
taken only while the requirement is unmet, stopping as soon as it is met
or the candidates run out.  Concretely: capacity 2048, two completed
1024-byte tasks with different last-access times, and a fetch needing
1024 bytes delete only the least-recently-accessed task. -/
theorem c5_eviction_order :
    (∀ ts : List Core.EvictTask,
      (Core.candidates ts).Sorted Core.victimLE ∧
      (Core.candidates ts).Perm
        (ts.filter
          (fun t => t.state == Core.TaskState.success && !t.hasSubscribers))) ∧
    (∀ (required : Nat) (st : Core.CacheState), ∃ k,
      k ≤ (Core.candidates st.tasks).length ∧
      (Core.EnsureCapacity required st).1 =
        ((Core.candidates st.tasks).take k).map (fun v => v.key) ∧
      (Core.EnsureCapacity required st).2 = st.freeBytes +
        (((Core.candidates st.tasks).take k).map (fun v => v.sizeBytes)).sum ∧
      (∀ j < k, st.freeBytes +
        (((Core.candidates st.tasks).take j).map
          (fun v => v.sizeBytes)).sum < required) ∧
      (k < (Core.candidates st.tasks).length →
        required ≤ (Core.EnsureCapacity required st).2)) ∧
    (Core.EnsureCapacity 1024
      { tasks :=
          [{ key := "new", sizeBytes := 1024, state := Core.TaskState.success,
             hasSubscribers := false, lastAccess := 20, createdAt := 5 },
           { key := "old", sizeBytes := 1024, state := Core.TaskState.success,
             hasSubscribers := false, lastAccess := 10, createdAt := 5 }],
        capacity := 2048, freeBytes := 0 } = (["old"], 1024)) := by
  refine ⟨?_, ?_, ?_⟩
  · intro ts
    exact ⟨List.sorted_insertionSort Core.victimLE _,
      List.perm_insertionSort Core.victimLE _⟩
  · intro required st
    exact evictLoop_spec required (Core.candidates st.tasks) st.freeBytes
  · decide

/-- C5 witness: `EnsureCapacity` on a concrete state with no candidates
and capacity already sufficient. -/
theorem c5_witness :
    ∃ k,
      k ≤ (Core.candidates ([] : List Core.EvictTask)).length ∧
      (Core.EnsureCapacity 7
        { tasks := [], capacity := 0, freeBytes := 9 }).1 =
        ((Core.candidates ([] : List Core.EvictTask)).take k).map
          (fun v => v.key) ∧
      (Core.EnsureCapacity 7
        { tasks := [], capacity := 0, freeBytes := 9 }).2 = 9 +
        (((Core.candidates ([] : List Core.EvictTask)).take k).map
          (fun v => v.sizeBytes)).sum ∧
      (∀ j < k, 9 +
        (((Core.candidates ([] : List Core.EvictTask)).take j).map
          (fun v => v.sizeBytes)).sum < 7) ∧
      (k < (Core.candidates ([] : List Core.EvictTask)).length →
        7 ≤ (Core.EnsureCapacity 7
          { tasks := [], capacity := 0, freeBytes := 9 }).2) :=
  c5_eviction_order.2.1 7 { tasks := [], capacity := 0, freeBytes := 9 }
